import Mathlib

/-!
Verification of eslint-plugin-node's version-gated feature engine.

Shallow embedding of:
  - `getInnermostScope` (lib/util/get-innermost-scope.js), as a fuelled loop:
    one unit of fuel is one iteration of the source's `while` loop, so a
    result of `none` for every fuel means the loop never exits.
  - `parseOptions`, `isIgnored`, `VERSION_MAP` and the support-table
    construction (lib/rules/no-unsupported-ecma-features.js).  semver ranges
    appear in the source only as `>=v` (or an exact default) intersected with
    `<t`; such an intersection is non-empty exactly when `v < t`, so a range
    is embedded as its minimum version.
  - `report` / `isStrict` (the diagnostic wrapper) and the message template.
  - `merge` (the visitor multiplexer) with handlers abstracted to the ordered
    list of original handlers a visit invokes.
  - the `Program:exit` consumer of the reference tracer's match events with
    its `ignore`-set de-duplication.

The ecma-features catalog (lib/util/ecma-features.js) and the reference
tracer (lib/util/reference-tracer.js) are not among the staged source files;
the few concrete facts needed about them are modelled from the spec and are
marked `Modelled from the spec:` on their definitions.
-/

/-- A lexical scope as the source reads it: `scope.block.range` (a half-open
byte range), `scope.isStrict`, and `scope.childScopes` in order. -/
inductive Scope where
  | mk : Nat × Nat → Bool → List Scope → Scope

/-- The `block.range` of a scope. -/
def Scope.range : Scope → Nat × Nat
  | .mk r _ _ => r

/-- The `isStrict` flag of a scope. -/
def Scope.isStrict : Scope → Bool
  | .mk _ s _ => s

/-- The ordered `childScopes` list of a scope. -/
def Scope.childScopes : Scope → List Scope
  | .mk _ _ c => c

/-- The test `range[0] <= location && location < range[1]` of the source. -/
def containsLoc (s : Scope) (location : Nat) : Bool :=
  decide (s.range.1 ≤ location ∧ location < s.range.2)

/-- Fuelled embedding of `getInnermostScope`.  Each unit of fuel is one
iteration of the `while (scope.childScopes.length !== 0)` loop: if the scope
has no children the loop exits and returns it; otherwise the `for` loop takes
the first child whose range contains the location and continues from it, and
when no child matches the iteration ends with `scope` unchanged and the loop
runs again on the same scope.  `none` means the fuel ran out before the loop
exited. -/
def getInnermostScopeFuel : Nat → Scope → Nat → Option Scope
  | 0, _, _ => none
  | fuel + 1, scope, location =>
    if scope.childScopes.isEmpty then some scope
    else
      match scope.childScopes.find? (fun c => containsLoc c location) with
      | some child => getInnermostScopeFuel fuel child location
      | none => getInnermostScopeFuel fuel scope location

/-- A semantic version `major.minor.patch`. -/
structure Version where
  major : Nat
  minor : Nat
  patch : Nat
deriving DecidableEq

/-- Strict semver precedence on release versions. -/
def Version.ltProp (a b : Version) : Prop :=
  a.major < b.major ∨
    (a.major = b.major ∧
      (a.minor < b.minor ∨ (a.minor = b.minor ∧ a.patch < b.patch)))

instance (a b : Version) : Decidable (Version.ltProp a b) := by
  unfold Version.ltProp
  infer_instance

/-- Boolean semver precedence. -/
def versionLt (a b : Version) : Bool :=
  decide (Version.ltProp a b)

/-- The string `major.minor.patch` of a version, as the source renders it in
messages. -/
def versionToString (v : Version) : String :=
  Nat.repr v.major ++ "." ++ Nat.repr v.minor ++ "." ++ Nat.repr v.patch

/-- The `node` field of a catalog feature descriptor: a plain version string,
an object with optional `sloppy` and `strict` thresholds, or absent. -/
inductive FeatureNode where
  | str (v : Version)
  | obj (sloppy strict : Option Version)
  | null
deriving DecidableEq

/-- A catalog feature descriptor: display name, `singular` grammar flag,
version threshold(s) and configuration aliases. -/
structure FeatureDescriptor where
  name : String
  singular : Bool
  node : FeatureNode
  aliases : List String
deriving DecidableEq

/-- One entry of the support table `parseOptions` builds. -/
structure ParsedFeature where
  name : String
  singular : Bool
  supported : Bool
  supportedInStrict : Bool
deriving DecidableEq

/-- A numeric option value as it appears in the rule's schema: a decimal
literal, embedded exactly as `mantissa / 10 ^ exponent`.  All of
`VERSION_MAP`'s keys and the schema's numeric shorthands are short decimals,
on which JS number equality agrees with equality of the denoted rationals. -/
structure JSNum where
  mantissa : Int
  exponent : Nat
deriving DecidableEq

/-- Equality of the denoted rationals, by cross multiplication. -/
def JSNum.eq (a b : JSNum) : Bool :=
  decide (a.mantissa * (10 : Int) ^ b.exponent
    = b.mantissa * (10 : Int) ^ a.exponent)

/-- The source's `VERSION_MAP`: numeric shorthand keys to version strings
(`0.1` is `⟨1, 1⟩`, `6.5` is `⟨65, 1⟩`, and so on). -/
def VERSION_MAP : List (JSNum × Version) :=
  [(⟨1, 1⟩, ⟨0, 10, 0⟩), (⟨12, 2⟩, ⟨0, 12, 0⟩), (⟨4, 0⟩, ⟨4, 0, 0⟩),
   (⟨5, 0⟩, ⟨5, 0, 0⟩), (⟨6, 0⟩, ⟨6, 0, 0⟩), (⟨65, 1⟩, ⟨6, 5, 0⟩),
   (⟨7, 0⟩, ⟨7, 0, 0⟩), (⟨76, 1⟩, ⟨7, 6, 0⟩), (⟨8, 0⟩, ⟨8, 0, 0⟩),
   (⟨83, 1⟩, ⟨8, 3, 0⟩), (⟨9, 0⟩, ⟨9, 0, 0⟩), (⟨10, 0⟩, ⟨10, 0, 0⟩)]

/-- `VERSION_MAP.get(q)`: `none` when `q` is not a key. -/
def versionMapLookup (q : JSNum) : Option Version :=
  (VERSION_MAP.find? (fun p => JSNum.eq p.1 q)).map Prod.snd

/-- The first positional option of the rule: a numeric shorthand, a version
string, an object with optional `version` and `ignores`, or omitted. -/
inductive RuleOptions where
  | num (q : JSNum)
  | str (v : Version)
  | objNum (q : JSNum) (ignores : List String)
  | objStr (v : Version) (ignores : List String)
  | objNone (ignores : List String)
  | undef

/-- The version the option text itself resolves to, before the default is
applied: `VERSION_MAP.get` for numbers (possibly `undefined`), the string
itself for strings, the same applied to `options.version` for objects. -/
def RuleOptions.requestedVersion : RuleOptions → Option Version
  | .num q => versionMapLookup q
  | .str v => some v
  | .objNum q _ => versionMapLookup q
  | .objStr v _ => some v
  | .objNone _ => none
  | .undef => none

/-- The `ignores` the source extracts: `options.ignores || []` for an object
option, `[]` otherwise. -/
def RuleOptions.ignores : RuleOptions → List String
  | .objNum _ ign => ign
  | .objStr _ ign => ign
  | .objNone ign => ign
  | _ => []

/-- The source's `isIgnored(key, ignores)`: the key itself is listed, or some
alias of the key's descriptor is listed. -/
def isIgnored (cat : String → FeatureDescriptor) (key : String)
    (ignores : List String) : Bool :=
  ignores.contains key || (cat key).aliases.any (fun a => ignores.contains a)

/-- One entry of the table the `OPTIONS.reduce` in `parseOptions` builds, for
a given range minimum `minVersion`.  `semver.intersects(">=v", "<t")` (and
likewise for the exact default version) holds exactly when `v < t`, so
`!semver.intersects(range, "<t")` is `!versionLt minVersion t`.  An ignored
key gets both flags forced `true`; a string `node` gives both modes one
threshold; an object `node` reads `sloppy` and `strict` separately, a missing
field (or a missing `node`) giving `false`. -/
def buildFeatureEntry (cat : String → FeatureDescriptor) (ignores : List String)
    (minVersion : Version) (key : String) : ParsedFeature :=
  let feature := cat key
  if isIgnored cat key ignores then
    ⟨feature.name, feature.singular, true, true⟩
  else
    match feature.node with
    | .str t =>
      ⟨feature.name, feature.singular, !versionLt minVersion t,
        !versionLt minVersion t⟩
    | .obj sl st =>
      ⟨feature.name, feature.singular,
        match sl with
        | some t => !versionLt minVersion t
        | none => false,
        match st with
        | some t => !versionLt minVersion t
        | none => false⟩
    | .null => ⟨feature.name, feature.singular, false, false⟩

/-- What `parseOptions` returns: the resolved version and the frozen support
table (a total function here; the source's table has exactly the catalog's
keys). -/
structure ParsedConfig where
  version : Version
  features : String → ParsedFeature

/-- The source's `parseOptions(options, defaultVersion)` over a catalog
`cat`: resolve the requested version, fall back to the default when it is
absent (also when a numeric shorthand misses `VERSION_MAP`), and build the
support table against the range whose minimum is the resolved version. -/
def parseOptions (options : RuleOptions) (defaultVersion : Version)
    (cat : String → FeatureDescriptor) : ParsedConfig :=
  let version := options.requestedVersion.getD defaultVersion
  ⟨version, fun key => buildFeatureEntry cat options.ignores version key⟩

/-- The data of one `context.report` call: the substituted `feature`, `be`
and `version` placeholders of the message template. -/
structure Diagnostic where
  feature : String
  be : String
  version : String
deriving DecidableEq

/-- The message template `{{feature}} {{be}} not supported yet on Node
{{version}}.` rendered with a diagnostic's data. -/
def renderMessage (d : Diagnostic) : String :=
  d.feature ++ " " ++ d.be ++ " not supported yet on Node " ++ d.version ++ "."

/-- Fuelled embedding of the rule's `report(node, key)` applied to the
feature's support-table entry.  A supported feature reports nothing; a
feature unsupported in strict mode too reports its plain message; otherwise
`isStrict(node)` runs `getInnermostScope` at the node's start offset and the
qualified message is reported exactly when the found scope is sloppy.  The
outer `none` means the scope lookup's loop never exited within `fuel`
iterations, so no report decision was ever reached. -/
def report (fuel : Nat) (f : ParsedFeature) (version : String) (scope : Scope)
    (loc : Nat) : Option (Option Diagnostic) :=
  if f.supported then some none
  else if !f.supportedInStrict then
    some (some ⟨f.name, if f.singular then "is" else "are", version⟩)
  else
    match getInnermostScopeFuel fuel scope loc with
    | none => none
    | some s =>
      if s.isStrict then some none
      else
        some (some ⟨f.name ++ " in non-strict mode",
          if f.singular then "is" else "are", version⟩)

/-- A visitor-map handler as `merge` manipulates it: either an original
handler (abstracted to a label of type `α`) or the multiplexer the source
builds, holding its `_fs` list. -/
inductive Handler (α : Type) where
  | base (f : α)
  | multi (fs : List (Handler α))

mutual

/-- The original handlers one visit invokes, in invocation order: a base
handler runs itself; the multiplexer runs `for (const f of this) f(node)`
over its `_fs` list, each entry exactly once, with no early exit between
entries. -/
def Handler.run {α : Type} : Handler α → List α
  | .base f => [f]
  | .multi fs => Handler.runList fs

/-- `Handler.run` over a `_fs` list, concatenated in order. -/
def Handler.runList {α : Type} : List (Handler α) → List α
  | [] => []
  | h :: t => Handler.run h ++ Handler.runList t

end

/-- What `merge` does at one key both maps define: a plain existing handler
is replaced by a fresh multiplexer over `[old, new]`; an existing multiplexer
gets the new handler pushed onto its `_fs`. -/
def mergeHandler {α : Type} : Handler α → Handler α → Handler α
  | .base f, h => .multi [.base f, h]
  | .multi fs, h => .multi (fs ++ [h])

/-- A visitor map: node-type key to handler, `none` where no handler is
installed. -/
def VisitorMap (α : Type) : Type :=
  String → Option (Handler α)

/-- The source's `merge(x, y)`: for each key of `y`, install `y`'s handler
when `x` has none, and combine with `mergeHandler` when `x` already has
one. -/
def merge {α : Type} (x y : VisitorMap α) : VisitorMap α :=
  fun k =>
    match y k with
    | none => x k
    | some hy =>
      match x k with
      | none => some hy
      | some hx => some (mergeHandler hx hy)

/-- One match event as the `Program:exit` handler consumes it: the resolved
property path, the matched node's start offset `node.range[0]`, and whether
the node is the superclass expression of a class (the source's
`CLASS_TYPE.test(node.parent.type) && node.parent.superClass === node`). -/
structure ExitEvent where
  path : List String
  start : Nat
  superClassUse : Bool
deriving DecidableEq

/-- The catalog key of an event: `path.join(".")`. -/
def ExitEvent.key (e : ExitEvent) : String :=
  String.intercalate "." e.path

/-- The originating root name of an event: `path[0]`. -/
def ExitEvent.root (e : ExitEvent) : String :=
  e.path.headD ""

/-- The de-duplication key of an event: the template string
`path[0] + "@" + node.range[0]`. -/
def ExitEvent.ignoreKey (e : ExitEvent) : String :=
  e.root ++ "@" ++ Nat.repr e.start

/-- One `report(node, key)` invocation the `Program:exit` loop makes.
`dedup` is `true` for the catalog-feature branch guarded by the `ignore`
set, `false` for the subclassing branch. -/
structure ExitReport where
  dedup : Bool
  key : String
  root : String
  start : Nat
deriving DecidableEq

/-- The compound de-duplication key of a report. -/
def ExitReport.ignoreKey (r : ExitReport) : String :=
  r.root ++ "@" ++ Nat.repr r.start

/-- The body of the `Program:exit` loop over the (already reversed) event
sequence, threading the `ignore` set: an event whose joined path is a catalog
key and whose compound key is not yet ignored adds its compound key and
reports that key; independently, an event naming a subclassing test target
used as a superclass reports `"extends" + key`. -/
def exitGo (isFeat isSub : String → Bool) :
    List ExitEvent → List String → List ExitReport
  | [], _ => []
  | e :: rest, ignore =>
    if isFeat e.key && !(ignore.contains e.ignoreKey) then
      ⟨true, e.key, e.root, e.start⟩ ::
        ((if isSub e.key && e.superClassUse then
            [⟨false, "extends" ++ e.key, e.root, e.start⟩]
          else []) ++
          exitGo isFeat isSub rest (e.ignoreKey :: ignore))
    else
      (if isSub e.key && e.superClassUse then
        [⟨false, "extends" ++ e.key, e.root, e.start⟩]
      else []) ++
        exitGo isFeat isSub rest ignore

/-- The whole `Program:exit` pass: the tracer's event sequence is reversed
(`Array.from(...).reverse()`) and consumed with an initially empty `ignore`
set. -/
def programExit (isFeat isSub : String → Bool) (events : List ExitEvent) :
    List ExitReport :=
  exitGo isFeat isSub events.reverse []

/-- How many catalog-feature (de-duplicated branch) reports of a list carry
the compound key `k`. -/
def dedupCount (l : List ExitReport) (k : String) : Nat :=
  (l.filter (fun r => r.dedup && (ExitReport.ignoreKey r == k))).length

/-- The source's `SUBCLASSING_TEST_TARGETS`. -/
def SUBCLASSING_TEST_TARGETS : List String :=
  ["Array", "RegExp", "Function", "Promise", "Boolean", "Number", "String",
   "Map", "Set"]

/-- Membership in `SUBCLASSING_TEST_TARGETS`. -/
def subclassIsTarget (k : String) : Bool :=
  SUBCLASSING_TEST_TARGETS.contains k

/-- A scope tree on which the locator's loop sticks: the root covers
`[0, 30)` and has one child covering `[10, 20)`, so offset `5` lies in the
root's range but in no child's. -/
def bugScopeOne : Scope :=
  .mk (0, 30) false [.mk (10, 20) false []]

/-- A deeper scope tree: root `[0, 100)` with children `[10, 20)` (itself
with a child `[12, 18)`) and `[30, 40)`; offset `50` lies in the root's range
but in no child's. -/
def bugScopeNine : Scope :=
  .mk (0, 100) false
    [.mk (10, 20) false [.mk (12, 18) false []], .mk (30, 40) true []]

/-- A scope tree for the strict-mode check: the sloppy root covers `[0, 50)`
and has one child `[20, 30)`; offset `5` lies in the root's range only, so
the innermost scope containing it is the sloppy root. -/
def bugScopeSix : Scope :=
  .mk (0, 50) false [.mk (20, 30) false []]

/-- A support-table entry unsupported in sloppy mode but supported in strict
mode, the shape that makes `report` consult `isStrict`. -/
def sloppyOnlyFeature : ParsedFeature :=
  ⟨"block-scoped declarations", false, false, true⟩

/-- Modelled from the spec: the catalog descriptor for `generatorFunctions`
(lib/util/ecma-features.js is not among the staged sources).  The spec's
scenario fixes its display name, plural grammar and that it is unsupported at
`4.0.0`; the minimum version chosen here is `6.0.0`. -/
def generatorFunctionsDescriptor : FeatureDescriptor :=
  ⟨"generator functions", false, .str ⟨6, 0, 0⟩, []⟩

/-- A catalog sending every key to the generator-functions descriptor. -/
def generatorCat : String → FeatureDescriptor :=
  fun _ => generatorFunctionsDescriptor

/-- The parsed configuration at the numeric shorthand `4` (version `4.0.0`)
over the generator catalog. -/
def generatorConfig : ParsedConfig :=
  parseOptions (.num ⟨4, 0⟩) ⟨6, 0, 0⟩ generatorCat

/-- The support-table entry for `generatorFunctions` at `4.0.0`. -/
def generatorEntry : ParsedFeature :=
  generatorConfig.features "generatorFunctions"

/-- The diagnostic data the generator-functions report carries at `4.0.0`. -/
def generatorDiagnostic : Diagnostic :=
  ⟨"generator functions", "are", "4.0.0"⟩

/-- Modelled from the spec: the catalog keys rooted at the `Atomics` global
(lib/util/ecma-features.js is not among the staged sources): the bare global
and its tracked `wait` member are both catalog features. -/
def atomicsFeatureKeys : List String :=
  ["Atomics", "Atomics.wait"]

/-- Membership in the modelled Atomics catalog keys. -/
def atomicsIsFeature (k : String) : Bool :=
  atomicsFeatureKeys.contains k

/-- Modelled from the spec: the reference tracer's match events for code
reading `Atomics.wait` (lib/util/reference-tracer.js is not among the staged
sources): one match per interesting path prefix, the root's read first, both
with the same start offset (a member expression starts where its object
does). -/
def atomicsEvents : List ExitEvent :=
  [⟨["Atomics"], 10, false⟩, ⟨["Atomics", "wait"], 10, false⟩]

/-- Modelled from the spec: descriptors for the Atomics features, unsupported
at `6.0.0` (minimum version `8.3.0`, the concurrency-primitive level of the
version alias table). -/
def atomicsCat : String → FeatureDescriptor := fun k =>
  if k = "Atomics.wait" then ⟨"'Atomics.wait'", true, .str ⟨8, 3, 0⟩, []⟩
  else ⟨"'Atomics'", true, .str ⟨8, 3, 0⟩, []⟩

/-- The parsed configuration at version `6.0.0` over the Atomics catalog. -/
def atomicsConfig : ParsedConfig :=
  parseOptions (.str ⟨6, 0, 0⟩) ⟨6, 0, 0⟩ atomicsCat

/-- A one-descriptor catalog used at concrete inputs: arrow functions,
threshold `4.0.0`, one alias. -/
def arrowCat : String → FeatureDescriptor :=
  fun _ => ⟨"arrow functions", false, .str ⟨4, 0, 0⟩, ["es-syntax"]⟩

/-- A one-descriptor catalog whose thresholds are split by strictness and
both absent. -/
def modulesCat : String → FeatureDescriptor :=
  fun _ => ⟨"import and export declarations", false, .obj none none, []⟩

/-- A one-descriptor catalog with the single fixed threshold `7.0.0`. -/
def expoCat : String → FeatureDescriptor :=
  fun _ => ⟨"exponential operators", false, .str ⟨7, 0, 0⟩, []⟩

/-- A visitor map with one original handler (labelled `1`) for `Program`. -/
def mapA : VisitorMap Nat :=
  fun k => if k = "Program" then some (.base 1) else none

/-- A visitor map with one original handler (labelled `2`) for `Program`. -/
def mapB : VisitorMap Nat :=
  fun k => if k = "Program" then some (.base 2) else none

/-- Helper: once the current scope has children and none of them contains the
location, every further iteration of the locator's loop re-runs on the same
scope, so no fuel bound suffices. -/
lemma getInnermostScopeFuel_stuck (s : Scope) (loc : Nat)
    (hne : s.childScopes.isEmpty = false)
    (hfind : s.childScopes.find? (fun c => containsLoc c loc) = none) :
    ∀ fuel, getInnermostScopeFuel fuel s loc = none := by
  intro fuel
  induction fuel with
  | zero => rfl
  | succ n ih =>
    simp only [getInnermostScopeFuel, hne, hfind, Bool.false_eq_true, if_false]
    exact ih

/-- C1: the claim says `getInnermostScope` terminates, and in particular
stops and returns the current scope when that scope has child scopes but none
of their ranges contains the offset.  On the code it does not: at
`bugScopeOne` with offset `5` (inside the root's range, root has a child,
no child's range contains the offset) the while loop never exits — every
iteration bound is exhausted without a result, in particular the current
scope is never returned. -/
theorem scope_locator_loops_when_no_child_matches :
    containsLoc bugScopeOne 5 = true ∧
    bugScopeOne.childScopes.isEmpty = false ∧
    bugScopeOne.childScopes.all (fun c => !containsLoc c 5) = true ∧
    ∀ fuel, getInnermostScopeFuel fuel bugScopeOne 5 = none :=
  ⟨by decide, by decide, by decide,
    getInnermostScopeFuel_stuck _ _ (by decide) (by rfl)⟩

/-- C9: the claim says that for every offset inside the root's range the
locator returns a scope containing the offset with no child containing it.
On the code, at `bugScopeNine` with offset `50` inside the root's range, no
scope is returned at all for any iteration bound (the loop never exits), so
in particular no scope satisfying the postcondition is returned. -/
theorem scope_locator_returns_no_scope_for_inside_offset :
    containsLoc bugScopeNine 50 = true ∧
    ∀ fuel, getInnermostScopeFuel fuel bugScopeNine 50 = none :=
  ⟨by decide, getInnermostScopeFuel_stuck _ _ (by decide) (by rfl)⟩

/-- C6: the claim says that for a feature unsupported in non-strict mode but
supported in strict mode, `report` emits the qualified diagnostic exactly
when the innermost scope containing the node's start offset is not strict.
On the code, at `sloppyOnlyFeature` and offset `5` in `bugScopeSix` — whose
innermost containing scope is the sloppy root, so the claim requires a
diagnostic — the `isStrict` lookup's loop never exits (the root keeps a child
scope not containing the offset), so no report decision is ever reached for
any iteration bound. -/
theorem report_never_fires_when_scope_lookup_diverges :
    sloppyOnlyFeature.supported = false ∧
    sloppyOnlyFeature.supportedInStrict = true ∧
    containsLoc bugScopeSix 5 = true ∧
    bugScopeSix.childScopes.all (fun c => !containsLoc c 5) = true ∧
    bugScopeSix.isStrict = false ∧
    ∀ fuel, report fuel sloppyOnlyFeature "6.0.0" bugScopeSix 5 = none := by
  refine ⟨by decide, by decide, by decide, by decide, by decide, ?_⟩
  intro fuel
  have h := getInnermostScopeFuel_stuck bugScopeSix 5 (by decide) (by rfl) fuel
  simp [report, sloppyOnlyFeature, h]

/-- C2: for every option value (hence every configured target version and
ignore list), default version and catalog, a feature key that `isIgnored`
accepts — matched by the key itself or by any of its aliases — gets
`supported = true` and `supportedInStrict = true` in the support table built
by `parseOptions`. -/
theorem ignored_feature_forced_supported (opts : RuleOptions) (d : Version)
    (cat : String → FeatureDescriptor) (key : String)
    (h : isIgnored cat key opts.ignores = true) :
    ((parseOptions opts d cat).features key).supported = true ∧
    ((parseOptions opts d cat).features key).supportedInStrict = true := by
  simp [parseOptions, buildFeatureEntry, h]

/-- Witness for C2 at a concrete input: `arrowFunctions` ignored through its
alias at version `6.0.0`. -/
theorem ignored_feature_forced_supported_witness :
    ((parseOptions (.objNone ["es-syntax"]) ⟨6, 0, 0⟩ arrowCat).features
      "arrowFunctions").supported = true ∧
    ((parseOptions (.objNone ["es-syntax"]) ⟨6, 0, 0⟩ arrowCat).features
      "arrowFunctions").supportedInStrict = true :=
  ignored_feature_forced_supported (.objNone ["es-syntax"]) ⟨6, 0, 0⟩ arrowCat
    "arrowFunctions" (by decide)

/-- C3: for every non-ignored feature whose thresholds are split by
strictness mode, a mode whose threshold is absent resolves to `false` for
that mode's support field, whatever the configured version — fail-closed,
with no error raised (`parseOptions` is total). -/
theorem absent_mode_threshold_fails_closed (opts : RuleOptions) (d : Version)
    (cat : String → FeatureDescriptor) (key : String) (sl st : Option Version)
    (hnode : (cat key).node = .obj sl st)
    (hign : isIgnored cat key opts.ignores = false) :
    (sl = none → ((parseOptions opts d cat).features key).supported = false) ∧
    (st = none →
      ((parseOptions opts d cat).features key).supportedInStrict = false) := by
  constructor
  · rintro rfl
    simp [parseOptions, buildFeatureEntry, hign, hnode]
  · rintro rfl
    simp [parseOptions, buildFeatureEntry, hign, hnode]

/-- Witness for C3 at a concrete input: a descriptor with both mode
thresholds absent, at version `6.0.0`. -/
theorem absent_mode_threshold_fails_closed_witness :
    (none = (none : Option Version) →
      ((parseOptions (.str ⟨6, 0, 0⟩) ⟨6, 0, 0⟩ modulesCat).features
        "modules").supported = false) ∧
    (none = (none : Option Version) →
      ((parseOptions (.str ⟨6, 0, 0⟩) ⟨6, 0, 0⟩ modulesCat).features
        "modules").supportedInStrict = false) :=
  absent_mode_threshold_fails_closed (.str ⟨6, 0, 0⟩) ⟨6, 0, 0⟩ modulesCat
    "modules" none none (by decide) (by decide)

/-- Helper: semver precedence is transitive. -/
lemma Version.ltProp_trans {a b c : Version} (h1 : a.ltProp b)
    (h2 : b.ltProp c) : a.ltProp c := by
  unfold Version.ltProp at h1 h2 ⊢
  omega

/-- C8: for a feature with a fixed single threshold, if `parseOptions` at
target version `V1` yields `supported = true`, then it does at every higher
target version `V2` as well — support is monotone in the target version. -/
theorem single_threshold_support_monotone (d : Version)
    (cat : String → FeatureDescriptor) (key : String) (t V1 V2 : Version)
    (hnode : (cat key).node = .str t)
    (hlt : Version.ltProp V1 V2)
    (h1 : ((parseOptions (.str V1) d cat).features key).supported = true) :
    ((parseOptions (.str V2) d cat).features key).supported = true := by
  have hig : ∀ v : Version,
      isIgnored cat key (RuleOptions.ignores (.str v)) = false := by
    intro v
    simp [isIgnored, RuleOptions.ignores]
  simp [parseOptions, buildFeatureEntry, hig, hnode, versionLt] at h1 ⊢
  intro hcon
  exact h1 (Version.ltProp_trans hlt hcon)

/-- Witness for C8 at a concrete input: threshold `7.0.0`, versions `7.6.0`
and `8.0.0`. -/
theorem single_threshold_support_monotone_witness :
    ((parseOptions (.str ⟨8, 0, 0⟩) ⟨6, 0, 0⟩ expoCat).features
      "exponentialOperators").supported = true :=
  single_threshold_support_monotone ⟨6, 0, 0⟩ expoCat "exponentialOperators"
    ⟨7, 0, 0⟩ ⟨7, 6, 0⟩ ⟨8, 0, 0⟩ (by decide) (by decide) (by decide)

/-- C10: a numeric option value that is not a key of `VERSION_MAP` raises no
error (`parseOptions` is total on it): the resolved version is the default
and the whole support table is the one computed from the default version's
range with an empty ignore list. -/
theorem unknown_numeric_shorthand_uses_default (q : JSNum) (d : Version)
    (cat : String → FeatureDescriptor)
    (h : versionMapLookup q = none) :
    (parseOptions (.num q) d cat).version = d ∧
    ∀ key, (parseOptions (.num q) d cat).features key
      = buildFeatureEntry cat [] d key := by
  constructor
  · simp [parseOptions, RuleOptions.requestedVersion, h]
  · intro key
    simp [parseOptions, RuleOptions.requestedVersion, RuleOptions.ignores, h]

/-- Witness for C10 at the concrete input `6.1` (not a `VERSION_MAP` key),
default version `6.0.0`. -/
theorem unknown_numeric_shorthand_uses_default_witness :
    (parseOptions (.num ⟨61, 1⟩) ⟨6, 0, 0⟩ arrowCat).version = ⟨6, 0, 0⟩ ∧
    ∀ key, (parseOptions (.num ⟨61, 1⟩) ⟨6, 0, 0⟩ arrowCat).features key
      = buildFeatureEntry arrowCat [] ⟨6, 0, 0⟩ key :=
  unknown_numeric_shorthand_uses_default ⟨61, 1⟩ ⟨6, 0, 0⟩ arrowCat (by decide)

/-- Counterexample for C7: the diagnostic the code emits for an unsupported
generator-function feature at version `4.0.0` renders as "... not supported
yet on Node 4.0.0.", not as the claim's "... not supported yet on target
4.0.0.". -/
theorem unsupported_message_counterexample :
    report 0 generatorEntry (versionToString generatorConfig.version)
        (.mk (0, 100) false []) 0 = some (some generatorDiagnostic) ∧
    renderMessage generatorDiagnostic
      = "generator functions are not supported yet on Node 4.0.0." ∧
    renderMessage generatorDiagnostic
      ≠ "generator functions are not supported yet on target 4.0.0." :=
  ⟨by decide, by decide, by decide⟩

/-- C7 as amended: every diagnostic `report` emits renders as
"{feature} {is|are} not supported yet on Node {version}." — with "is" when
the feature's singular flag is set, "are" otherwise, and the non-strict
variant inserting "in non-strict mode" after the feature name. -/
theorem unsupported_message_says_node (fuel : Nat) (f : ParsedFeature)
    (version : String) (scope : Scope) (loc : Nat) (d : Diagnostic)
    (h : report fuel f version scope loc = some (some d)) :
    renderMessage d
      = f.name ++ " " ++ (if f.singular then "is" else "are")
        ++ " not supported yet on Node " ++ version ++ "." ∨
    renderMessage d
      = f.name ++ " in non-strict mode" ++ " "
        ++ (if f.singular then "is" else "are")
        ++ " not supported yet on Node " ++ version ++ "." := by
  by_cases hs : f.supported
  · simp [report, hs] at h
  · by_cases hst : f.supportedInStrict
    · cases hg : getInnermostScopeFuel fuel scope loc with
      | none =>
        simp [report, hs, hst, hg] at h
      | some s =>
        by_cases hstrict : s.isStrict
        · simp [report, hs, hst, hg, hstrict] at h
        · simp [report, hs, hst, hg, hstrict] at h
          right
          subst h
          rfl
    · simp [report, hs, hst] at h
      left
      subst h
      rfl

/-- Witness for C7's amended theorem at the generator-function scenario:
version `4.0.0`, plural feature, unsupported in both modes. -/
theorem unsupported_message_says_node_witness :
    renderMessage generatorDiagnostic
      = generatorEntry.name ++ " "
        ++ (if generatorEntry.singular then "is" else "are")
        ++ " not supported yet on Node "
        ++ versionToString generatorConfig.version ++ "." ∨
    renderMessage generatorDiagnostic
      = generatorEntry.name ++ " in non-strict mode" ++ " "
        ++ (if generatorEntry.singular then "is" else "are")
        ++ " not supported yet on Node "
        ++ versionToString generatorConfig.version ++ "." :=
  unsupported_message_says_node 0 generatorEntry
    (versionToString generatorConfig.version) (.mk (0, 100) false []) 0
    generatorDiagnostic (by decide)

/-- Helper: running a concatenation of `_fs` lists runs each part in
order. -/
lemma Handler.runList_append {α : Type} (a b : List (Handler α)) :
    Handler.runList (a ++ b) = Handler.runList a ++ Handler.runList b := by
  induction a with
  | nil => simp [Handler.runList]
  | cons h t ih => simp [Handler.runList, ih]

/-- Helper: one `mergeHandler` step runs the existing handler's invocations
and then the new handler's, each exactly once. -/
lemma Handler.run_mergeHandler {α : Type} (x y : Handler α) :
    (mergeHandler x y).run = x.run ++ y.run := by
  cases x with
  | base f => simp [mergeHandler, Handler.run, Handler.runList]
  | multi fs =>
    simp [mergeHandler, Handler.run, Handler.runList_append, Handler.runList]

/-- Helper: folding any number of successive merges over a handler appends
their invocations in merge order. -/
lemma Handler.foldl_mergeHandler_run {α : Type} (l : List (Handler α)) :
    ∀ h : Handler α,
      (l.foldl mergeHandler h).run = h.run ++ Handler.runList l := by
  induction l with
  | nil => intro h; simp [Handler.runList]
  | cons x t ih =>
    intro h
    simp [List.foldl, ih, Handler.run_mergeHandler, Handler.runList,
      List.append_assoc]

/-- C4: when visitor maps `A` and `B` both define a handler for key `k`,
`merge A B` installs the multiplexer at `k`, and a single visit through it
invokes `A`'s original handler's invocations and then `B`'s, each exactly
once, in registration order, with no handler able to suppress a later one;
and after any number of further merges on the same key the invocation list is
still the concatenation in merge order. -/
theorem merged_handlers_run_in_order {α : Type} (A B : VisitorMap α)
    (k : String) (hA hB : Handler α)
    (h1 : A k = some hA) (h2 : B k = some hB) :
    merge A B k = some (mergeHandler hA hB) ∧
    (mergeHandler hA hB).run = hA.run ++ hB.run ∧
    ∀ later : List (Handler α),
      (later.foldl mergeHandler (mergeHandler hA hB)).run
        = hA.run ++ hB.run ++ Handler.runList later := by
  refine ⟨by simp [merge, h1, h2], Handler.run_mergeHandler hA hB, ?_⟩
  intro later
  rw [Handler.foldl_mergeHandler_run, Handler.run_mergeHandler,
    List.append_assoc]

/-- Witness for C4 at concrete maps: two original `Program` handlers,
labelled `1` and `2`. -/
theorem merged_handlers_run_in_order_witness :
    merge mapA mapB "Program" = some (mergeHandler (.base 1) (.base 2)) ∧
    (mergeHandler (Handler.base 1) (Handler.base 2)).run
      = (Handler.base 1).run ++ (Handler.base 2).run ∧
    ∀ later : List (Handler Nat),
      (later.foldl mergeHandler (mergeHandler (.base 1) (.base 2))).run
        = (Handler.base 1).run ++ (Handler.base 2).run
          ++ Handler.runList later :=
  merged_handlers_run_in_order mapA mapB "Program" (.base 1) (.base 2)
    (by rfl) (by rfl)

/-- Helper: counting de-duplicated reports through a cons. -/
lemma dedupCount_cons (r : ExitReport) (l : List ExitReport) (k : String) :
    dedupCount (r :: l) k
      = (if r.dedup = true ∧ r.ignoreKey = k then 1 else 0)
        + dedupCount l k := by
  cases hd : r.dedup
  · simp [dedupCount, List.filter_cons, hd]
  · by_cases hik : r.ignoreKey = k
    · simp [dedupCount, List.filter_cons, hd, hik]
      omega
    · simp [dedupCount, List.filter_cons, hd, hik]

/-- Helper: the subclassing branch contributes nothing to the de-duplicated
count. -/
lemma dedupCount_subclass_append (b : Bool) (key root : String) (start : Nat)
    (l : List ExitReport) (k : String) :
    dedupCount ((if b = true then [(⟨false, key, root, start⟩ : ExitReport)]
        else []) ++ l) k
      = dedupCount l k := by
  cases b <;> simp [dedupCount, List.filter_cons, List.filter_append]

/-- Helper: the `Program:exit` loop reports at most one catalog feature per
compound key not yet in the `ignore` set, and none for a key already
ignored. -/
lemma exitGo_dedupCount_le (F S : String → Bool) (k : String) :
    ∀ (evs : List ExitEvent) (ignore : List String),
      dedupCount (exitGo F S evs ignore) k
        ≤ if ignore.contains k then 0 else 1 := by
  intro evs
  induction evs with
  | nil =>
    intro ignore
    simp [exitGo, dedupCount]
  | cons e rest ih =>
    intro ignore
    rw [exitGo]
    by_cases hf : (F e.key && !ignore.contains e.ignoreKey) = true
    · rw [if_pos hf]
      have hni : ignore.contains e.ignoreKey = false := by
        simp only [Bool.and_eq_true] at hf
        simpa using hf.2
      rw [dedupCount_cons, dedupCount_subclass_append]
      by_cases hk : ExitEvent.ignoreKey e = k
      · subst hk
        have hc :
            (e.ignoreKey :: ignore).contains e.ignoreKey = true := by
          rw [List.contains_cons]
          simp
        have hrec := ih (e.ignoreKey :: ignore)
        rw [hc] at hrec
        simp at hrec
        rw [if_pos ⟨rfl, rfl⟩, hni, hrec]
        simp
      · have hbk : (k == e.ignoreKey) = false :=
          beq_eq_false_iff_ne.mpr (fun hcc => hk hcc.symm)
        have hc : (e.ignoreKey :: ignore).contains k = ignore.contains k := by
          rw [List.contains_cons, hbk, Bool.false_or]
        have hrec := ih (e.ignoreKey :: ignore)
        rw [hc] at hrec
        have hik :
            ¬((⟨true, e.key, e.root, e.start⟩ : ExitReport).dedup = true ∧
              (⟨true, e.key, e.root, e.start⟩ : ExitReport).ignoreKey = k) := by
          intro hcon
          exact hk hcon.2
        rw [if_neg hik]
        simpa using hrec
    · rw [if_neg hf, dedupCount_subclass_append]
      exact ih ignore

/-- C5: the `Program:exit` pass reports at most one catalog-feature
diagnostic per compound key of originating root name and terminal start
offset, for every event sequence; and at version `6.0.0` the modelled events
for reading `Atomics.wait` produce exactly one catalog report — for the
Atomics root's most specific path — with no separate report for the bare
`Atomics` read, and `report` turns it into exactly one diagnostic since the
feature is unsupported at `6.0.0`. -/
theorem atomics_wait_reported_once :
    (∀ (isFeat isSub : String → Bool) (events : List ExitEvent) (k : String),
        dedupCount (programExit isFeat isSub events) k ≤ 1) ∧
    programExit atomicsIsFeature subclassIsTarget atomicsEvents
      = [⟨true, "Atomics.wait", "Atomics", 10⟩] ∧
    (atomicsConfig.features "Atomics.wait").supported = false ∧
    (atomicsConfig.features "Atomics").supported = false ∧
    report 0 (atomicsConfig.features "Atomics.wait")
        (versionToString atomicsConfig.version) (.mk (0, 100) false []) 10
      = some (some ⟨"'Atomics.wait'", "is", "6.0.0"⟩) := by
  refine ⟨?_, by decide, by decide, by decide, by decide⟩
  intro isFeat isSub events k
  have h := exitGo_dedupCount_le isFeat isSub k events.reverse []
  simpa [programExit] using h
